import Mathlib

set_option autoImplicit false

/-!
Shallow embedding of the core of the MurMesh replication harness
(`src/pbft.rs`, `src/unreplicated.rs`, `src/model/search/state.rs`,
`src/crypto.rs`), together with theorems checking the natural-language
design document against this code.

Conventions of the embedding:
* Rust machine integers (`u8`, `u32`, `usize`) are modelled as `Nat`;
  none of the modelled code paths overflows them on the inputs used;
* byte strings (`Vec<u8>`, `[u8; 32]`) are `List Nat`;
* `HashMap` is modelled as an association list with insert-or-replace
  semantics (`ainsert`); hash-map iteration order is arbitrary in Rust
  and no modelled property depends on the order chosen here;
* failing Rust code (`assert!`, `todo!`, `unwrap`, `anyhow::ensure!`,
  and fuel exhaustion of a `while` loop) is an `Except Panic` error;
* capability objects (networks, crypto worker, upcalls, timers) are
  modelled as emitted effect lists; closures stored in `on_request` and
  in the `on_verified_*` queues are defunctionalized to the data they
  capture, which is exact because only finitely many closure shapes
  occur in the source.
-/

namespace MurMesh

/-- Panic and error outcomes of the embedded Rust code. -/
inductive Panic where
  | assertFail
  | todoStateTransfer
  | todoForwardRequest
  | unwrapNone
  | loopFuel
  | missingTimer
  | ensureFail
deriving DecidableEq

section AList

variable {β : Type}

/-- Lookup in an association-list map (`HashMap::get`). -/
def alookup (k : Nat) : List (Nat × β) → Option β
  | [] => none
  | (k', v) :: rest => if k' = k then some v else alookup k rest

/-- Insert-or-replace into an association-list map (`HashMap::insert`). -/
def ainsert (k : Nat) (v : β) : List (Nat × β) → List (Nat × β)
  | [] => [(k, v)]
  | (k', v') :: rest => if k' = k then (k, v) :: rest else (k', v') :: ainsert k v rest

/-- Remove a key from an association-list map (`HashMap::remove`). -/
def aremove (k : Nat) : List (Nat × β) → List (Nat × β)
  | [] => []
  | (k', v') :: rest => if k' = k then rest else (k', v') :: aremove k rest

/-- Update the value stored at a key, when present (`HashMap::get_mut`
followed by in-place mutation). -/
def amodify (k : Nat) (f : β → β) : List (Nat × β) → List (Nat × β)
  | [] => []
  | (k', v') :: rest => if k' = k then (k', f v') :: rest else (k', v') :: amodify k f rest

end AList

/-! ## Search-mode virtual schedule (`src/model/search/state.rs`) -/

/-- Timer entry of the search-mode virtual schedule (`TimerEnvelop`).
A `Duration` is modelled as a `Nat` count of nanoseconds; every period
the protocols set is a finite duration, strictly below `Duration::MAX`,
which is the initial `map_while` limit in `Schedule::events`. -/
structure TimerEnvelop (M : Type) where
  id : Nat
  period : Nat
  event : M
deriving DecidableEq

/-- Search-mode virtual schedule (`Schedule`): an ordered list of live
timer entries plus a monotonic id counter. -/
structure Schedule (M : Type) where
  envelops : List (TimerEnvelop M)
  count : Nat
deriving DecidableEq

section ScheduleDefs

variable {M : Type}

/-- Rust `Schedule::set`: bump the counter, append the new envelop, return the id. -/
def Schedule.set (s : Schedule M) (period : Nat) (event : M) : Schedule M × Nat :=
  let id := s.count + 1
  ({ envelops := s.envelops ++ [⟨id, period, event⟩], count := id }, id)

/-- Helper of `Schedule::remove`: `iter().position(|e| e.id == id)`
followed by `Vec::remove(pos)`, returning the removed envelop and the
remaining list, or `none` when no envelop carries the id. -/
def removeAux (id : Nat) : List (TimerEnvelop M) → Option (TimerEnvelop M × List (TimerEnvelop M))
  | [] => none
  | e :: rest =>
    if e.id = id then some (e, rest)
    else
      match removeAux id rest with
      | none => none
      | some (r, rest') => some (r, e :: rest')

/-- Rust `Schedule::remove`: fails with `missing timer of ..` when the id is absent. -/
def Schedule.remove (s : Schedule M) (id : Nat) :
    Except Panic (TimerEnvelop M × Schedule M) :=
  match removeAux id s.envelops with
  | none => .error .missingTimer
  | some (e, rest) => .ok (e, { s with envelops := rest })

/-- Rust `Schedule::unset` (via `ScheduleEvent::unset`): remove by id, discard the envelop. -/
def Schedule.unset (s : Schedule M) (id : Nat) : Except Panic (Schedule M) :=
  match s.remove id with
  | .error e => .error e
  | .ok (_, s') => .ok s'

/-- Rust `Schedule::tick`: remove the fired envelop and push it to the end. -/
def Schedule.tick (s : Schedule M) (id : Nat) : Except Panic (Schedule M) :=
  match s.remove id with
  | .error e => .error e
  | .ok (e, s') => .ok { s' with envelops := s'.envelops ++ [e] }

/-- Loop of `Schedule::events`: `map_while` with a mutable `limit`
starting at `Duration::MAX` (modelled by `none`), emitting an envelop
only while its period is strictly below the limit and then lowering the
limit to that period. -/
def eventsFrom (limit : Option Nat) : List (TimerEnvelop M) → List (Nat × M)
  | [] => []
  | e :: rest =>
    match limit with
    | none => (e.id, e.event) :: eventsFrom (some e.period) rest
    | some l =>
      if l ≤ e.period then []
      else (e.id, e.event) :: eventsFrom (some e.period) rest

/-- Rust `Schedule::events`. -/
def Schedule.events (s : Schedule M) : List (Nat × M) :=
  eventsFrom none s.envelops

/-- Shortest period among the envelops, when any exist. -/
def minPeriod? : List (TimerEnvelop M) → Option Nat
  | [] => none
  | e :: rest =>
    match minPeriod? rest with
    | none => some e.period
    | some m => some (Nat.min e.period m)

/-- Rule stated by the claim for `Schedule::events`: yield exactly the
envelops sharing the shortest period, in insertion order. -/
def shortestTies (s : Schedule M) : List (Nat × M) :=
  match minPeriod? s.envelops with
  | none => []
  | some m => (s.envelops.filter (fun e => e.period == m)).map (fun e => (e.id, e.event))

/-- Walk described by the spec for `Schedule::events`: emit entries while
each period strictly decreases from the previously emitted one; the first
entry is always emitted. -/
def decWalkFrom (prev : Nat) : List (TimerEnvelop M) → List (TimerEnvelop M)
  | [] => []
  | e :: rest => if e.period < prev then e :: decWalkFrom e.period rest else []

/-- Start of the strictly-decreasing walk. -/
def decWalk : List (TimerEnvelop M) → List (TimerEnvelop M)
  | [] => []
  | e :: rest => e :: decWalkFrom e.period rest

theorem eventsFrom_some_eq_decWalkFrom (prev : Nat) (l : List (TimerEnvelop M)) :
    eventsFrom (some prev) l = (decWalkFrom prev l).map (fun e => (e.id, e.event)) := by
  induction l generalizing prev with
  | nil => rfl
  | cons e rest ih =>
    simp only [eventsFrom, decWalkFrom]
    by_cases h : e.period < prev
    · rw [if_pos h, if_neg (by omega)]
      simp [ih]
    · rw [if_neg h, if_pos (by omega)]
      rfl

end ScheduleDefs

/-- C4 (amended): for every search-mode schedule, `events()` yields
exactly the maximal prefix of the entry list along which periods
strictly decrease, in insertion order, each entry as its `(id, event)`
pair; the first entry is always yielded. -/
theorem C4_events_strict_decreasing_walk {M : Type} (s : Schedule M) :
    s.events = (decWalk s.envelops).map (fun e => (e.id, e.event)) := by
  cases h : s.envelops with
  | nil => simp [Schedule.events, h, eventsFrom, decWalk]
  | cons e rest =>
    simp only [Schedule.events, h, eventsFrom, decWalk, List.map_cons]
    rw [eventsFrom_some_eq_decWalkFrom]

/-- C4 counterexample: for the schedule holding timer id 1 with period 5
then timer id 2 with period 3, `events()` yields both timers, although
timer 1's period 5 is longer than the shortest period 3, and for the
schedule holding two timers that tie at period 3, `events()` yields only
the first, not both; this refutes the claim that exactly the
shortest-period timers are yielded. -/
theorem C4_events_counterexample :
    Schedule.events (M := Nat) ⟨[⟨1, 5, 0⟩, ⟨2, 3, 1⟩], 2⟩ = [(1, 0), (2, 1)]
      ∧ shortestTies (M := Nat) ⟨[⟨1, 5, 0⟩, ⟨2, 3, 1⟩], 2⟩ = [(2, 1)]
      ∧ Schedule.events (M := Nat) ⟨[⟨1, 3, 0⟩, ⟨2, 3, 1⟩], 2⟩ = [(1, 0)]
      ∧ shortestTies (M := Nat) ⟨[⟨1, 3, 0⟩, ⟨2, 3, 1⟩], 2⟩ = [(1, 0), (2, 1)] := by
  refine ⟨rfl, rfl, rfl, rfl⟩

theorem removeAux_eq_none {M : Type} (id : Nat) (l : List (TimerEnvelop M))
    (h : ∀ e ∈ l, e.id ≠ id) : removeAux id l = none := by
  induction l with
  | nil => rfl
  | cons e rest ih =>
    simp only [removeAux]
    rw [if_neg (h e (List.mem_cons_self e rest))]
    rw [ih (fun e' he' => h e' (List.mem_cons_of_mem e he'))]

theorem removeAux_rest_not_mem {M : Type} (id : Nat) (l : List (TimerEnvelop M))
    (e : TimerEnvelop M) (rest : List (TimerEnvelop M))
    (hnd : (l.map TimerEnvelop.id).Nodup) (h : removeAux id l = some (e, rest)) :
    ∀ e' ∈ rest, e'.id ≠ id := by
  induction l generalizing rest with
  | nil => simp [removeAux] at h
  | cons x xs ih =>
    simp only [removeAux] at h
    simp only [List.map_cons, List.nodup_cons] at hnd
    by_cases hx : x.id = id
    · rw [if_pos hx] at h
      cases h
      intro e' he' heq
      exact hnd.1 (hx ▸ heq ▸ List.mem_map_of_mem TimerEnvelop.id he')
    · rw [if_neg hx] at h
      cases hrec : removeAux id xs with
      | none => rw [hrec] at h; cases h
      | some p =>
        rw [hrec] at h
        cases h
        intro e' he'
        cases List.mem_cons.mp he' with
        | inl hx' => exact hx' ▸ hx
        | inr hx' => exact ih p.2 hnd.2 (hrec.trans (congrArg some rfl)) e' hx'

/-- C10: for every search-mode schedule, `unset(id)` and `tick(id)` fail
with the `missing timer` error when no envelop currently carries that id;
in particular when the schedule's ids are distinct (as guaranteed by the
monotonic counter), unsetting the same id twice fails on the second call. -/
theorem C10_unset_tick_missing (s : Schedule Nat) (id : Nat) :
    ((∀ e ∈ s.envelops, e.id ≠ id) →
      s.unset id = .error .missingTimer ∧ s.tick id = .error .missingTimer)
    ∧ (∀ s₁ : Schedule Nat, (s.envelops.map TimerEnvelop.id).Nodup →
        s.unset id = .ok s₁ → s₁.unset id = .error .missingTimer) := by
  constructor
  · intro h
    have hrem : s.remove id = .error .missingTimer := by
      simp [Schedule.remove, removeAux_eq_none id s.envelops h]
    exact ⟨by simp [Schedule.unset, hrem], by simp [Schedule.tick, hrem]⟩
  · intro s₁ hnd hok
    simp only [Schedule.unset] at hok
    cases hrem : s.remove id with
    | error e => rw [hrem] at hok; cases hok
    | ok p =>
      rw [hrem] at hok
      cases hok
      simp only [Schedule.remove] at hrem
      cases haux : removeAux id s.envelops with
      | none => rw [haux] at hrem; cases hrem
      | some q =>
        rw [haux] at hrem
        cases hrem
        have hmem : ∀ e' ∈ q.2, e'.id ≠ id :=
          removeAux_rest_not_mem id s.envelops q.1 q.2 hnd haux
        have : Schedule.remove { s with envelops := q.2 } id = .error .missingTimer := by
          simp [Schedule.remove, removeAux_eq_none id q.2 hmem]
        simp [Schedule.unset, this]

/-- Witness for C10 at a concrete schedule: unsetting and ticking a
missing id fail, and after a successful unset the same id fails. -/
theorem C10_witness :
    (Schedule.unset (M := Nat) ⟨[⟨1, 5, 0⟩], 1⟩ 2 = .error .missingTimer
      ∧ Schedule.tick (M := Nat) ⟨[⟨1, 5, 0⟩], 1⟩ 2 = .error .missingTimer)
    ∧ Schedule.unset (M := Nat) ⟨[], 1⟩ 1 = .error .missingTimer :=
  ⟨(C10_unset_tick_missing ⟨[⟨1, 5, 0⟩], 1⟩ 2).1 (by decide),
   (C10_unset_tick_missing ⟨[⟨1, 5, 0⟩], 1⟩ 1).2 ⟨[], 1⟩ (by decide) (by rfl)⟩

/-! ## Unreplicated client (`src/unreplicated.rs`) -/

/-- Request of the unreplicated protocol (`unreplicated::Request`).
Addresses are opaque ordered values; they are instantiated as `Nat`. -/
structure URequest where
  seq : Nat
  op : List Nat
  client_id : Nat
  client_addr : Nat
deriving DecidableEq

/-- Outstanding invocation of the unreplicated client (`Outstanding`);
the `ActiveTimer` is kept as its opaque id. -/
structure Outstanding where
  op : List Nat
  timer : Nat
deriving DecidableEq

/-- Unreplicated client state (`ClientState`). -/
structure ClientState where
  id : Nat
  addr : Nat
  seq : Nat
  outstanding : Option Outstanding
deriving DecidableEq

/-- Effects the unreplicated client emits through its context. -/
inductive UEffect where
  | sendRequest (r : URequest)
  | upcall (result : List Nat)
deriving DecidableEq

/-- Result of running one unreplicated-client handler: the client and
schedule after the run (mutations persist even when the handler returns
an error, since the handler holds `&mut self`), the emitted effects, and
the handler's `anyhow::Result`. -/
structure UStep where
  client : ClientState
  schedule : Schedule Unit
  effects : List UEffect
  result : Except Panic Unit

/-- Rust `ClientState::send_request`: build the request from the outstanding
op (`.expect(..)` panics when idle) and cast it to the server. -/
def send_request (c : ClientState) : Except Panic UEffect :=
  match c.outstanding with
  | none => .error .unwrapNone
  | some o =>
    .ok (.sendRequest { seq := c.seq, op := o.op, client_id := c.id, client_addr := c.addr })

/-- Handler of `Invoke(op)` for the unreplicated client. The mutations
happen in source order: `seq += 1`; the 100 ms resend timer is set while
the new `Outstanding` is constructed; `outstanding` is replaced; only
then `ensure!(replaced.is_none())` can fail, after which `send_request`
is not reached. The context's schedule is the search-mode `Schedule`. -/
def uOnInvoke (c : ClientState) (sch : Schedule Unit) (op : List Nat) : UStep :=
  let c₁ := { c with seq := c.seq + 1 }
  let p := sch.set 100 ()
  let replaced := c₁.outstanding
  let c₂ := { c₁ with outstanding := some { op := op, timer := p.2 } }
  match replaced with
  | some _ => { client := c₂, schedule := p.1, effects := [], result := .error .ensureFail }
  | none =>
    match send_request c₂ with
    | .error e => { client := c₂, schedule := p.1, effects := [], result := .error e }
    | .ok eff => { client := c₂, schedule := p.1, effects := [eff], result := .ok () }

/-- C9: when the unreplicated client receives `Invoke(op')` while an
invocation is already outstanding, the handler returns an error, but the
state was already mutated before the error: `seq` is incremented, a new
resend timer is set in the schedule, and `outstanding` is replaced by
`op'` with the new timer (the previous invocation and its timer id are
lost); no request is sent; the error is not atomic w.r.t. client state. -/
theorem C9_invoke_error_after_mutation
    (c : ClientState) (sch : Schedule Unit) (op' : List Nat) (old : Outstanding)
    (h : c.outstanding = some old) :
    (uOnInvoke c sch op').result = .error .ensureFail
    ∧ (uOnInvoke c sch op').client.seq = c.seq + 1
    ∧ (uOnInvoke c sch op').client.outstanding = some { op := op', timer := sch.count + 1 }
    ∧ (uOnInvoke c sch op').schedule =
        { envelops := sch.envelops ++ [⟨sch.count + 1, 100, ()⟩], count := sch.count + 1 }
    ∧ (uOnInvoke c sch op').effects = [] := by
  simp [uOnInvoke, Schedule.set, h]

/-- Witness for C9 at a concrete client that has invocation `[1]`
outstanding under timer 1 and receives `Invoke([2])`. -/
theorem C9_witness :
    (uOnInvoke ⟨7, 3, 1, some ⟨[1], 1⟩⟩ ⟨[⟨1, 100, ()⟩], 1⟩ [2]).result = .error .ensureFail
    ∧ (uOnInvoke ⟨7, 3, 1, some ⟨[1], 1⟩⟩ ⟨[⟨1, 100, ()⟩], 1⟩ [2]).client.seq = 1 + 1
    ∧ (uOnInvoke ⟨7, 3, 1, some ⟨[1], 1⟩⟩ ⟨[⟨1, 100, ()⟩], 1⟩ [2]).client.outstanding
        = some { op := [2], timer := 1 + 1 }
    ∧ (uOnInvoke ⟨7, 3, 1, some ⟨[1], 1⟩⟩ ⟨[⟨1, 100, ()⟩], 1⟩ [2]).schedule
        = { envelops := [⟨1, 100, ()⟩] ++ [⟨1 + 1, 100, ()⟩], count := 1 + 1 }
    ∧ (uOnInvoke ⟨7, 3, 1, some ⟨[1], 1⟩⟩ ⟨[⟨1, 100, ()⟩], 1⟩ [2]).effects = [] :=
  C9_invoke_error_after_mutation ⟨7, 3, 1, some ⟨[1], 1⟩⟩ ⟨[⟨1, 100, ()⟩], 1⟩ [2] ⟨[1], 1⟩ rfl

/-! ## Structural digest (`src/crypto.rs`) -/

/-- Host byte order. -/
inductive Endian where
  | little
  | big
deriving DecidableEq

/-- Little-endian byte encoding of `n` into `w` bytes (`to_le_bytes`). -/
def leBytes : Nat → Nat → List Nat
  | 0, _ => []
  | w + 1, n => n % 256 :: leBytes w (n / 256)

/-- Native-endian byte encoding (`to_ne_bytes`) on a host of endianness `e`. -/
def neBytes (e : Endian) (w n : Nat) : List Nat :=
  match e with
  | .little => leBytes w n
  | .big => (leBytes w n).reverse

mutual
/-- Structural values fed to the digest hasher: unsigned integers of the
widths `#[derive(Hash)]` writes, composite values hashed field-by-field
in declaration order (`hstruct`), and vectors/slices, which Rust's `Hash`
writes as a `usize` length prefix followed by the elements (`hvec`). -/
inductive HVal where
  | u8 (n : Nat)
  | u16 (n : Nat)
  | u32 (n : Nat)
  | u64 (n : Nat)
  | usize (n : Nat)
  | u128 (n : Nat)
  | hstruct (fields : HValList)
  | hvec (elems : HValList)

/-- List of structural values (fields of a composite, or vector elements). -/
inductive HValList where
  | nil
  | cons (v : HVal) (rest : HValList)
end

/-- Number of elements (for the `usize` length prefix of a vector). -/
def HValList.length : HValList → Nat
  | .nil => 0
  | .cons _ rest => rest.length + 1

mutual
/-- Byte stream `ImplHasher` feeds into SHA-256 for a value on a host of
endianness `host`. `write_u16` through `write_usize` are overridden in
`ImplHasher` to write `to_le_bytes`; `write_u8` writes its single byte;
`write_u128` is not overridden, so it keeps the `Hasher` trait default,
which writes `to_ne_bytes`. A 64-bit `usize` is assumed. The 32-byte
digest is SHA-256 of this stream, and SHA-256 is a deterministic
function of the stream, so digests agree across hosts exactly when the
streams do. -/
def hashStream (host : Endian) : HVal → List Nat
  | .u8 n => [n % 256]
  | .u16 n => leBytes 2 n
  | .u32 n => leBytes 4 n
  | .u64 n => leBytes 8 n
  | .usize n => leBytes 8 n
  | .u128 n => neBytes host 16 n
  | .hstruct fields => hashStreamList host fields
  | .hvec elems => leBytes 8 elems.length ++ hashStreamList host elems

/-- Concatenated streams of a list of values. -/
def hashStreamList (host : Endian) : HValList → List Nat
  | .nil => []
  | .cons v rest => hashStream host v ++ hashStreamList host rest
end

mutual
/-- Check that no 128-bit integer occurs anywhere in the value. -/
def no128 : HVal → Bool
  | .u8 _ => true
  | .u16 _ => true
  | .u32 _ => true
  | .u64 _ => true
  | .usize _ => true
  | .u128 _ => false
  | .hstruct fields => no128List fields
  | .hvec elems => no128List elems

/-- Check that no 128-bit integer occurs in any element of the list. -/
def no128List : HValList → Bool
  | .nil => true
  | .cons v rest => no128 v && no128List rest
end

mutual
theorem hashStream_endian_free (host : Endian) (v : HVal) (h : no128 v = true) :
    hashStream host v = hashStream .little v := by
  cases v with
  | u8 n => rfl
  | u16 n => rfl
  | u32 n => rfl
  | u64 n => rfl
  | usize n => rfl
  | u128 n => simp [no128] at h
  | hstruct fields =>
    simp only [hashStream]
    exact hashStreamList_endian_free host fields (by simpa [no128] using h)
  | hvec elems =>
    simp only [hashStream]
    rw [hashStreamList_endian_free host elems (by simpa [no128] using h)]

theorem hashStreamList_endian_free (host : Endian) (l : HValList)
    (h : no128List l = true) : hashStreamList host l = hashStreamList .little l := by
  cases l with
  | nil => rfl
  | cons v rest =>
    simp only [no128List, Bool.and_eq_true] at h
    simp only [hashStreamList]
    rw [hashStream_endian_free host v h.1, hashStreamList_endian_free host rest h.2]
end

/-- C8 (amended): for every value built from integer fields of the kinds
the codebase's messages use — 8-bit to 64-bit and word-size unsigned
integers, composites hashed field-by-field in declaration order, and
length-prefixed vectors, i.e. every value free of 128-bit integers — the
digest byte stream is written little-endian regardless of the host, so
hosts of different native endianness obtain the same 32 digest bytes. -/
theorem C8_digest_endian_stable (host : Endian) (v : HVal) (h : no128 v = true) :
    hashStream host v = hashStream .little v :=
  hashStream_endian_free host v h

/-- C8 counterexample: for the value consisting of the single 128-bit
integer 1, the digest streams on a big-endian and a little-endian host
differ, because `ImplHasher` does not override the `Hasher` trait's
native-endian default for `write_u128`; so the digest rule "hashing of
integers is little-endian, regardless of host" fails for 128-bit fields. -/
theorem C8_u128_not_endian_stable :
    hashStream .big (.u128 1) ≠ hashStream .little (.u128 1) := by
  decide

/-- Witness for C8 at a concrete composite value (a `u32` field and a
byte vector), evaluated on a big-endian host. -/
theorem C8_witness :
    no128 (.hstruct (.cons (.u32 7) (.cons (.hvec (.cons (.u8 1) .nil)) .nil))) = true
    ∧ hashStream .big (.hstruct (.cons (.u32 7) (.cons (.hvec (.cons (.u8 1) .nil)) .nil)))
      = hashStream .little (.hstruct (.cons (.u32 7) (.cons (.hvec (.cons (.u8 1) .nil)) .nil))) :=
  ⟨by decide,
   C8_digest_endian_stable .big
     (.hstruct (.cons (.u32 7) (.cons (.hvec (.cons (.u8 1) .nil)) .nil))) (by decide)⟩

/-! ## PBFT protocol (`src/pbft.rs`) -/

/-- Client request (`replication::Request<A>`; the module declaring it is
outside the provided sources, its fields are those the spec's data model
lists and `pbft.rs` uses: `{seq, op, client_id, client_addr}`).
Addresses are opaque values, instantiated as `Nat`. -/
structure Request where
  seq : Nat
  op : List Nat
  client_id : Nat
  client_addr : Nat
deriving DecidableEq

/-- Rust `PrePrepare` message body. -/
structure PrePrepare where
  view_num : Nat
  op_num : Nat
  digest : List Nat
deriving DecidableEq

/-- Rust `Prepare` message body. -/
structure Prepare where
  view_num : Nat
  op_num : Nat
  digest : List Nat
  replica_id : Nat
deriving DecidableEq

/-- Rust `Commit` message body. -/
structure Commit where
  view_num : Nat
  op_num : Nat
  digest : List Nat
  replica_id : Nat
deriving DecidableEq

/-- Rust `Reply` message. -/
structure Reply where
  seq : Nat
  result : List Nat
  view_num : Nat
  replica_id : Nat
deriving DecidableEq

/-- Rust `Signed<M>` = `Verifiable<M, Signature>`: an inner message plus a
signature, read-only after construction; the signature bytes are kept
opaque as a `Nat`. Whether a signature verifies under a signer's key is
the pluggable crypto provider's business and is passed to the handlers
that need it as a `verify` function. -/
structure Signed (M : Type) where
  inner : M
  signature : Nat
deriving DecidableEq

/-- Per-invocation bookkeeping of the PBFT client (`ClientInvoke`). -/
structure ClientInvoke where
  op : List Nat
  resend_timer : Nat
  replies : List (Nat × Reply)
deriving DecidableEq

/-- PBFT client state (`Client`). -/
structure Client where
  id : Nat
  addr : Nat
  seq : Nat
  invoke : Option ClientInvoke
  view_num : Nat
  num_replica : Nat
  num_faulty : Nat
deriving DecidableEq

/-- Effects the PBFT client emits (network sends, timer calls, upcall). -/
inductive ClientEffect where
  | unsetTimer (id : Nat)
  | sendReplica (replica : Nat) (r : Request)
  | upcall (client_id : Nat) (result : List Nat)
deriving DecidableEq

/-- Count of stored replies whose `result` equals the given one
(`invoke.replies.values().filter(..).count()`; hash-map value order does
not affect a count). -/
def matchCount (replies : List (Nat × Reply)) (result : List Nat) : Nat :=
  ((replies.map Prod.snd).filter (fun r => r.result == result)).length

/-- Rust `Client::do_send`: build the request for the current invocation
(`unwrap` panics when idle) and send it to the single replica
`view_num % num_replica`, the believed primary (the source carries a
`TODO broadcast on resend` comment at this point). -/
def Client.do_send (c : Client) : Except Panic (List ClientEffect) :=
  match c.invoke with
  | none => .error .unwrapNone
  | some inv =>
    .ok [.sendReplica (c.view_num % c.num_replica)
          { seq := c.seq, op := inv.op, client_id := c.id, client_addr := c.addr }]

/-- Rust `Client::on_resend_timeout` simply calls `do_send`. -/
def Client.on_resend_timeout (c : Client) : Except Panic (List ClientEffect) :=
  c.do_send

/-- Rust `Client::on_ingress(reply)`: drop on a stale `seq` or when idle;
otherwise store the reply keyed by `replica_id`, and when exactly
`num_faulty + 1` stored replies agree with this reply's `result`, adopt
the reply's `view_num`, take the invocation, unset its resend timer and
upcall the result. -/
def Client.on_ingress (c : Client) (reply : Reply) : Client × List ClientEffect :=
  if reply.seq ≠ c.seq then (c, [])
  else
    match c.invoke with
    | none => (c, [])
    | some inv =>
      let replies' := ainsert reply.replica_id reply inv.replies
      if matchCount replies' reply.result = c.num_faulty + 1 then
        ({ c with view_num := reply.view_num, invoke := none },
         [.unsetTimer inv.resend_timer, .upcall c.id reply.result])
      else
        ({ c with invoke := some { inv with replies := replies' } }, [])

/-- C5: on a `Reply` matching the current `seq` while an invocation is
outstanding, the client stores the reply keyed by `replica_id`; exactly
when `f+1` stored replies agree on this result it adopts the reply's
`view_num`, unsets the resend timer, clears the invocation and upcalls,
otherwise it only stores; once the invocation is cleared every further
reply is ignored; and an upcall only ever happens with `f+1` agreeing
stored replies. -/
theorem C5_client_reply_quorum
    (c : Client) (reply : Reply) (inv : ClientInvoke)
    (hseq : reply.seq = c.seq) (hinv : c.invoke = some inv) :
    (matchCount (ainsert reply.replica_id reply inv.replies) reply.result = c.num_faulty + 1 →
      c.on_ingress reply =
        ({ c with view_num := reply.view_num, invoke := none },
         [.unsetTimer inv.resend_timer, .upcall c.id reply.result]))
    ∧ (matchCount (ainsert reply.replica_id reply inv.replies) reply.result ≠ c.num_faulty + 1 →
      c.on_ingress reply =
        ({ c with invoke := some { inv with replies := ainsert reply.replica_id reply inv.replies } },
         []))
    ∧ (∀ r' : Reply, Client.on_ingress { c with invoke := none } r' = ({ c with invoke := none }, []))
    ∧ (∀ i res, ClientEffect.upcall i res ∈ (c.on_ingress reply).2 →
      matchCount (ainsert reply.replica_id reply inv.replies) reply.result = c.num_faulty + 1
        ∧ res = reply.result ∧ i = c.id) := by
  refine ⟨fun hcnt => ?_, fun hcnt => ?_, fun r' => ?_, fun i res hmem => ?_⟩
  · simp [Client.on_ingress, hseq, hinv, hcnt]
  · simp [Client.on_ingress, hseq, hinv, hcnt]
  · by_cases h : r'.seq = c.seq
    · simp [Client.on_ingress, h]
    · simp [Client.on_ingress, h]
  · simp only [Client.on_ingress, hseq, hinv, ne_eq, not_true_eq_false, if_false] at hmem
    by_cases hcnt :
      matchCount (ainsert reply.replica_id reply inv.replies) reply.result = c.num_faulty + 1
    · rw [if_pos hcnt] at hmem
      simp only [List.mem_cons, List.not_mem_nil, or_false] at hmem
      rcases hmem with h1 | h2
      · exact absurd h1 (by simp)
      · cases h2
        exact ⟨hcnt, rfl, rfl⟩
    · rw [if_neg hcnt] at hmem
      simp at hmem

/-- Witness for C5: a client with `f = 1` holding one matching stored
reply receives a second agreeing reply, reaching the `f+1 = 2` quorum
and upcalling. -/
theorem C5_witness :
    Client.on_ingress ⟨5, 8, 1, some ⟨[1], 1, [(0, ⟨1, [9], 0, 0⟩)]⟩, 0, 4, 1⟩ ⟨1, [9], 0, 1⟩
      = (⟨5, 8, 1, none, 0, 4, 1⟩, [.unsetTimer 1, .upcall 5 [9]]) :=
  (C5_client_reply_quorum ⟨5, 8, 1, some ⟨[1], 1, [(0, ⟨1, [9], 0, 0⟩)]⟩, 0, 4, 1⟩
      ⟨1, [9], 0, 1⟩ ⟨[1], 1, [(0, ⟨1, [9], 0, 0⟩)]⟩ rfl rfl).1 (by decide)

/-- C6: when the resend timeout fires while an invocation is outstanding,
the PBFT client re-sends the request as a single unicast to the believed
primary `view_num % num_replica` — not as a broadcast to all replicas
(the source marks broadcasting as a TODO). -/
theorem C6_resend_unicast_not_broadcast
    (c : Client) (inv : ClientInvoke) (h : c.invoke = some inv) :
    c.on_resend_timeout =
      .ok [.sendReplica (c.view_num % c.num_replica)
            { seq := c.seq, op := inv.op, client_id := c.id, client_addr := c.addr }] := by
  simp [Client.on_resend_timeout, Client.do_send, h]

/-- Witness for C6: a concrete client of a four-replica system resends to
replica 0 only — one send effect, not four. -/
theorem C6_witness :
    Client.on_resend_timeout ⟨5, 8, 1, some ⟨[1], 1, []⟩, 0, 4, 1⟩
      = .ok [.sendReplica 0 { seq := 1, op := [1], client_id := 5, client_addr := 8 }] :=
  C6_resend_unicast_not_broadcast ⟨5, 8, 1, some ⟨[1], 1, []⟩, 0, 4, 1⟩ ⟨[1], 1, []⟩ rfl

/-- Installed `on_request` callbacks, defunctionalized to the only two
closure shapes the source creates: the `|_, _| Ok(true)` sentinel
installed when a request enters consensus, and the reply-caching
callback built when a log entry commits. -/
inductive OnRequestCb where
  | sentinel
  | cachedReply (seq : Nat) (reply : Reply) (addr : Nat)
deriving DecidableEq

/-- Effects a replica handler emits: sends through the peer network and
the client network, and closures submitted to the crypto worker
(defunctionalized to the data they capture). -/
inductive ReplicaEffect where
  | sendAllPrePrepare (pp : Signed PrePrepare) (requests : List Request)
  | sendAllPrepare (p : Signed Prepare)
  | sendAllCommit (cm : Signed Commit)
  | sendClient (addr : Nat) (r : Reply)
  | submitVerifyPrePrepare (signer : Nat) (pp : Signed PrePrepare) (requests : List Request)
  | submitSignPrepare (p : Prepare)
  | submitSignCommit (cm : Commit)
  | submitVerifyPrepare (signer : Nat) (p : Signed Prepare)
  | submitVerifyCommit (signer : Nat) (cm : Signed Commit)
deriving DecidableEq

/-- Events the crypto worker can send back into the replica. -/
inductive ReplicaEvent where
  | VerifiedPrePrepare (pp : Signed PrePrepare) (requests : List Request)
  | SignedPrepare (p : Signed Prepare)
  | VerifiedPrepare (p : Signed Prepare)
  | SignedCommit (cm : Signed Commit)
  | VerifiedCommit (cm : Signed Commit)
deriving DecidableEq

/-- Log entry of a replica (`LogEntry`). -/
structure LogEntry where
  view_num : Nat
  pre_prepare : Option (Signed PrePrepare)
  requests : List Request
  prepares : List (Nat × Signed Prepare)
  commits : List (Nat × Signed Commit)
deriving DecidableEq

/-- Rust `LogEntry::default`. -/
def LogEntry.default : LogEntry :=
  { view_num := 0, pre_prepare := none, requests := [], prepares := [], commits := [] }

/-- PBFT replica state (`Replica`). The application is an abstract state
`app : Nat` together with an `exec : Nat → List Nat → Nat × List Nat`
step function passed to the handlers that execute ops (`App::execute`,
modelled as total: execution failures are outside the checked claims).
The `on_verified_prepare` / `on_verified_commit` queues store the signed
messages whose deferred `do_verify` closures are pending. -/
structure Replica where
  id : Nat
  num_replica : Nat
  num_faulty : Nat
  on_request : List (Nat × OnRequestCb)
  requests : List Request
  view_num : Nat
  op_num : Nat
  log : List LogEntry
  prepare_quorums : List (Nat × List (Nat × Signed Prepare))
  commit_quorums : List (Nat × List (Nat × Signed Commit))
  commit_num : Nat
  app : Nat
  on_verified_prepare : List (Nat × List (Signed Prepare))
  on_verified_commit : List (Nat × List (Signed Commit))
deriving DecidableEq

/-- Rust `Replica::new`. -/
def Replica.new (id num_replica num_faulty : Nat) : Replica :=
  { id := id, num_replica := num_replica, num_faulty := num_faulty,
    on_request := [], requests := [], view_num := 0, op_num := 0, log := [],
    prepare_quorums := [], commit_quorums := [], commit_num := 0, app := 0,
    on_verified_prepare := [], on_verified_commit := [] }

/-- Rust `Replica::is_primary`: note the source compares `id % num_replica`
against `view_num`, not `id` against `view_num % num_replica`. -/
def is_primary (s : Replica) : Bool :=
  s.id % s.num_replica == s.view_num

/-- Run an installed `on_request` callback against a request: the
sentinel swallows everything; the commit-time callback swallows stale
seqs, answers an equal seq with the cached reply, and declines newer
seqs. Returns the callback's boolean and the messages it sends. -/
def runOnRequest : OnRequestCb → Request → Bool × List ReplicaEffect
  | .sentinel, _ => (true, [])
  | .cachedReply seq reply addr, request =>
    if request.seq < seq then (true, [])
    else if request.seq = seq then (true, [.sendClient addr reply])
    else (false, [])

/-- Rust `Replica::on_ingress_request`: consult the installed callback first;
a non-primary reaching the accept path hits `todo!("forward request")`;
the primary installs the sentinel and appends to the unbatched queue. -/
def on_ingress_request (s : Replica) (request : Request) :
    Except Panic (Replica × List ReplicaEffect) :=
  let run :=
    match alookup request.client_id s.on_request with
    | some cb => runOnRequest cb request
    | none => (false, [])
  if run.1 then .ok (s, run.2)
  else if is_primary s = false then .error .todoForwardRequest
  else
    .ok ({ s with
            on_request := ainsert request.client_id .sentinel s.on_request,
            requests := s.requests ++ [request] },
         run.2)

/-- Rust `Vec::resize_with(n, Default::default)` for the log (only grows). -/
def resizeLog (log : List LogEntry) (n : Nat) : List LogEntry :=
  log ++ List.replicate (n - log.length) LogEntry.default

/-- Rust `if self.log.get(op_num).is_none() { self.log.resize_with(op_num + 1, ..) }`. -/
def ensureLen (log : List LogEntry) (op_num : Nat) : List LogEntry :=
  if op_num < log.length then log else resizeLog log (op_num + 1)

/-- Rust `Replica::on_signed_pre_prepare`: drop on a view mismatch; resize the
log; `Option::replace` the entry's pre-prepare and `assert!` the old one
was absent (the assert aborts the handler); record view and requests;
broadcast the pre-prepare with its requests. -/
def on_signed_pre_prepare (s : Replica) (pp : Signed PrePrepare) (requests : List Request) :
    Except Panic (Replica × List ReplicaEffect) :=
  if pp.inner.view_num ≠ s.view_num then .ok (s, [])
  else
    let op := pp.inner.op_num
    let log₁ := ensureLen s.log op
    let entry := log₁.getD op LogEntry.default
    if entry.pre_prepare.isSome then .error .assertFail
    else
      let entry₁ :=
        { entry with pre_prepare := some pp, view_num := s.view_num, requests := requests }
      .ok ({ s with log := log₁.set op entry₁ }, [.sendAllPrePrepare pp requests])

/-- Rust `Replica::on_ingress_pre_prepare`: a higher view hits
`todo!("state transfer to enter view")`, a lower view is dropped; an
op_num whose pre-prepare is already set is dropped; otherwise a closure
checking the requests' digest and the primary's signature is submitted
to the crypto worker (the primary index is `view_num % num_replica`). -/
def on_ingress_pre_prepare (s : Replica) (pp : Signed PrePrepare) (requests : List Request) :
    Except Panic (Replica × List ReplicaEffect) :=
  if pp.inner.view_num ≠ s.view_num then
    if s.view_num < pp.inner.view_num then .error .todoStateTransfer
    else .ok (s, [])
  else
    let seen :=
      match s.log[pp.inner.op_num]? with
      | some entry => entry.pre_prepare.isSome
      | none => false
    if seen then .ok (s, [])
    else .ok (s, [.submitVerifyPrePrepare (pp.inner.view_num % s.num_replica) pp requests])

/-- Rust `Replica::prepared`: drop the pending-verification queue of the op,
read the digest from the entry's pre-prepare (`unwrap`), and submit the
signing of this replica's `Commit` to the crypto worker. -/
def prepared (s : Replica) (op_num : Nat) : Except Panic (Replica × List ReplicaEffect) :=
  let s₁ := { s with on_verified_prepare := aremove op_num s.on_verified_prepare }
  match (s₁.log.getD op_num LogEntry.default).pre_prepare with
  | none => .error .unwrapNone
  | some pp =>
    .ok (s₁,
      [.submitSignCommit
        { view_num := s₁.view_num, op_num := op_num, digest := pp.inner.digest,
          replica_id := s₁.id }])

/-- Rust `Replica::on_verified_pre_prepare`: drop on a view mismatch; resize;
idempotently install the entry (drop when the pre-prepare is already
set); submit signing of this replica's `Prepare`; filter the commit and
prepare quorum scratches by the pre-prepare's digest; when the surviving
prepare quorum reaches `num_replica - num_faulty`, freeze the entry's
`prepares` (`assert!`ing they were empty) and enter `prepared`. -/
def on_verified_pre_prepare (s : Replica) (pp : Signed PrePrepare) (requests : List Request) :
    Except Panic (Replica × List ReplicaEffect) :=
  if pp.inner.view_num ≠ s.view_num then .ok (s, [])
  else
    let op := pp.inner.op_num
    let log₁ := ensureLen s.log op
    let entry := log₁.getD op LogEntry.default
    if entry.pre_prepare.isSome then .ok ({ s with log := log₁ }, [])
    else
      let entry₁ :=
        { entry with pre_prepare := some pp, view_num := s.view_num, requests := requests }
      let log₂ := log₁.set op entry₁
      let prepare : Prepare :=
        { view_num := s.view_num, op_num := op, digest := pp.inner.digest, replica_id := s.id }
      let commit_quorums₁ :=
        amodify op (fun q => q.filter (fun kv => kv.2.inner.digest == pp.inner.digest))
          s.commit_quorums
      match alookup op s.prepare_quorums with
      | none =>
        .ok ({ s with log := log₂, commit_quorums := commit_quorums₁ },
             [.submitSignPrepare prepare])
      | some pq =>
        let pq₁ := pq.filter (fun kv => kv.2.inner.digest == pp.inner.digest)
        if s.num_replica - s.num_faulty ≤ pq₁.length then
          if entry₁.prepares.isEmpty = false then .error .assertFail
          else
            let entry₂ := { entry₁ with prepares := pq₁ }
            let sFrozen :=
              { s with
                log := log₂.set op entry₂,
                commit_quorums := commit_quorums₁,
                prepare_quorums := aremove op (ainsert op pq₁ s.prepare_quorums) }
            match prepared sFrozen op with
            | .error e => .error e
            | .ok (s₂, effs) => .ok (s₂, .submitSignPrepare prepare :: effs)
        else
          let sNew :=
            { s with
              log := log₂,
              commit_quorums := commit_quorums₁,
              prepare_quorums := ainsert op pq₁ s.prepare_quorums }
          .ok (sNew, [.submitSignPrepare prepare])

/-- Rust `Replica::on_ingress_prepare`: a higher view hits `todo!`, a lower
view is dropped; drop when the entry is already frozen or disagrees with
the known pre-prepare's digest; otherwise, when a verification for this
op is already in flight (an `on_verified_prepare` queue exists) push the
deferred verification onto the queue, else install the empty queue as
the in-flight sentinel and submit the verification closure now. -/
def on_ingress_prepare (s : Replica) (p : Signed Prepare) :
    Except Panic (Replica × List ReplicaEffect) :=
  if p.inner.view_num ≠ s.view_num then
    if s.view_num < p.inner.view_num then .error .todoStateTransfer
    else .ok (s, [])
  else
    let drop :=
      match s.log[p.inner.op_num]? with
      | some entry =>
        if entry.prepares.isEmpty = false then true
        else
          match entry.pre_prepare with
          | some pp => p.inner.digest != pp.inner.digest
          | none => false
      | none => false
    if drop then .ok (s, [])
    else
      match alookup p.inner.op_num s.on_verified_prepare with
      | some tasks =>
        .ok ({ s with on_verified_prepare :=
                ainsert p.inner.op_num (tasks ++ [p]) s.on_verified_prepare }, [])
      | none =>
        .ok ({ s with on_verified_prepare :=
                ainsert p.inner.op_num [] s.on_verified_prepare },
             [.submitVerifyPrepare p.inner.replica_id p])

/-- Crypto-worker closure submitted by `on_ingress_prepare`: verify the
prepare under its claimed `replica_id`'s key; send `VerifiedPrepare` on
success and nothing at all on failure. `verify` is the pluggable crypto
provider's verdict. -/
def runVerifyPrepare (verify : Nat → Signed Prepare → Bool) (signer : Nat)
    (p : Signed Prepare) : List ReplicaEvent :=
  if verify signer p then [.VerifiedPrepare p] else []

/-- Rust `Replica::insert_prepare`: insert into the quorum scratch
(last-write-wins per replica id); below `num_replica - num_faulty`
entries do nothing more; without a log entry postpone; otherwise freeze
the entry's `prepares` (`assert!`ing they were empty) and enter
`prepared`. -/
def insert_prepare (s : Replica) (p : Signed Prepare) :
    Except Panic (Replica × List ReplicaEffect) :=
  let op := p.inner.op_num
  let pq := (alookup op s.prepare_quorums).getD []
  let pq₁ := ainsert p.inner.replica_id p pq
  let s₁ := { s with prepare_quorums := ainsert op pq₁ s.prepare_quorums }
  if pq₁.length < s.num_replica - s.num_faulty then .ok (s₁, [])
  else
    match s₁.log[op]? with
    | none => .ok (s₁, [])
    | some entry =>
      if entry.prepares.isEmpty = false then .error .assertFail
      else
        let entry₁ := { entry with prepares := pq₁ }
        let sFrozen :=
          { s₁ with
            log := s₁.log.set op entry₁,
            prepare_quorums := aremove op s₁.prepare_quorums }
        prepared sFrozen op

/-- Rust `Replica::on_verified_prepare` (the handler of the `VerifiedPrepare`
event): drop on a view mismatch; `insert_prepare`; then pop the next
deferred verification for the op from the queue (`Vec::pop` takes the
last element) and submit it, or remove the queue when it is empty. -/
def on_verified_prepare (s : Replica) (p : Signed Prepare) :
    Except Panic (Replica × List ReplicaEffect) :=
  if p.inner.view_num ≠ s.view_num then .ok (s, [])
  else
    let op := p.inner.op_num
    match insert_prepare s p with
    | .error e => .error e
    | .ok (s₁, effs) =>
      match alookup op s₁.on_verified_prepare with
      | none => .ok (s₁, effs)
      | some tasks =>
        match tasks.getLast? with
        | some task =>
          .ok ({ s₁ with on_verified_prepare :=
                  ainsert op tasks.dropLast s₁.on_verified_prepare },
               effs ++ [.submitVerifyPrepare task.inner.replica_id task])
        | none =>
          .ok ({ s₁ with on_verified_prepare := aremove op s₁.on_verified_prepare }, effs)

/-- Body of the `for request in &entry.requests` loop inside
`Replica::insert_commit`: execute the op, build the reply, run the fresh
reply-caching callback on the request right away (it sends the reply to
the client), and install the callback under the client id. -/
def execRequests (exec : Nat → List Nat → Nat × List Nat) :
    Replica → List Request → Replica × List ReplicaEffect
  | s, [] => (s, [])
  | s, request :: rest =>
    let er := exec s.app request.op
    let reply : Reply :=
      { seq := request.seq, result := er.2, view_num := s.view_num, replica_id := s.id }
    let cb := OnRequestCb.cachedReply request.seq reply request.client_addr
    let run := runOnRequest cb request
    let s₁ := { s with app := er.1, on_request := ainsert request.client_id cb s.on_request }
    let next := execRequests exec s₁ rest
    (next.1, run.2 ++ next.2)

/-- The `while let Some(entry) = self.log.get(self.commit_num + 1)` loop
at the end of `Replica::insert_commit`, with explicit fuel: `none` means
the loop was still running when the fuel ran out. The loop body executes
the entry's requests; the source contains no statement that changes
`commit_num` (or the log), so the loop guard never changes. -/
def commit_loop (exec : Nat → List Nat → Nat × List Nat) :
    Nat → Replica → List ReplicaEffect → Option (Replica × List ReplicaEffect)
  | 0, _, _ => none
  | fuel + 1, s, acc =>
    match s.log[s.commit_num + 1]? with
    | none => some (s, acc)
    | some entry =>
      if entry.commits.isEmpty then some (s, acc)
      else
        let step := execRequests exec s entry.requests
        commit_loop exec fuel step.1 (acc ++ step.2)

/-- Rust `Replica::insert_commit`: insert into the commit quorum scratch;
below `num_replica - num_faulty` entries do nothing more; drop without a
log entry or while `prepares` is still empty; otherwise freeze the
entry's `commits` (`assert!`ing they were empty) and run the
commit-advancing loop. -/
def insert_commit (exec : Nat → List Nat → Nat × List Nat) (fuel : Nat)
    (s : Replica) (cm : Signed Commit) : Except Panic (Replica × List ReplicaEffect) :=
  let op := cm.inner.op_num
  let cq := (alookup op s.commit_quorums).getD []
  let cq₁ := ainsert cm.inner.replica_id cm cq
  let s₁ := { s with commit_quorums := ainsert op cq₁ s.commit_quorums }
  if cq₁.length < s.num_replica - s.num_faulty then .ok (s₁, [])
  else
    match s₁.log[op]? with
    | none => .ok (s₁, [])
    | some entry =>
      if entry.prepares.isEmpty then .ok (s₁, [])
      else if entry.commits.isEmpty = false then .error .assertFail
      else
        let entry₁ := { entry with commits := cq₁ }
        let sFrozen :=
          { s₁ with
            log := s₁.log.set op entry₁,
            commit_quorums := aremove op s₁.commit_quorums }
        match commit_loop exec fuel sFrozen [] with
        | none => .error .loopFuel
        | some r => .ok r

/-- C3: `is_primary` computes `id % num_replica == view_num` instead of
`id == view_num % num_replica`. For the replica with id 0 of a
four-replica system in view 4, the spec's primary is `4 mod 4 = 0`, i.e.
this very replica, yet `is_primary` answers `false` — so a fresh client
request reaches the forwarding branch (`todo!("forward request")`)
instead of being accepted into the batch. In view 0 the two computations
agree. -/
theorem C3_primary_check_reversed :
    is_primary { Replica.new 0 4 1 with view_num := 4 } = false
    ∧ (4 : Nat) % 4 = 0
    ∧ on_ingress_request { Replica.new 0 4 1 with view_num := 4 } ⟨1, [1], 7, 9⟩
        = .error .todoForwardRequest
    ∧ is_primary (Replica.new 0 4 1) = true := by
  refine ⟨rfl, rfl, rfl, rfl⟩

theorem execRequests_preserves (exec : Nat → List Nat → Nat × List Nat)
    (s : Replica) (reqs : List Request) :
    (execRequests exec s reqs).1.log = s.log
    ∧ (execRequests exec s reqs).1.commit_num = s.commit_num := by
  induction reqs generalizing s with
  | nil => exact ⟨rfl, rfl⟩
  | cons r rest ih =>
    simp only [execRequests]
    exact ⟨(ih _).1, (ih _).2⟩

theorem commit_loop_stuck (exec : Nat → List Nat → Nat × List Nat) (entry : LogEntry)
    (hne : entry.commits.isEmpty = false) :
    ∀ (fuel : Nat) (s : Replica) (acc : List ReplicaEffect),
      s.log[s.commit_num + 1]? = some entry → commit_loop exec fuel s acc = none := by
  intro fuel
  induction fuel with
  | zero => intro s acc _; rfl
  | succ fuel ih =>
    intro s acc hget
    simp only [commit_loop, hget, hne, Bool.false_eq_true, if_false]
    apply ih
    rw [(execRequests_preserves exec s entry.requests).1,
        (execRequests_preserves exec s entry.requests).2]
    exact hget

/-- Log entry of op_num 1 on the verge of committing: pre-prepared in
view 0 with one client request, `prepares` frozen (non-empty), `commits`
not yet frozen. -/
def c1Entry : LogEntry :=
  { view_num := 0, pre_prepare := some ⟨⟨0, 1, [7]⟩, 50⟩, requests := [⟨1, [1], 7, 9⟩],
    prepares := [(0, ⟨⟨0, 1, [7], 0⟩, 60⟩)], commits := [] }

/-- Replica 0 of a `n = 4, f = 1` system holding `c1Entry` at op_num 1
and two commits for it in the quorum scratch; one more commit freezes. -/
def c1State : Replica :=
  { Replica.new 0 4 1 with
    log := [LogEntry.default, c1Entry],
    commit_quorums := [(1, [(0, ⟨⟨0, 1, [7], 0⟩, 70⟩), (1, ⟨⟨0, 1, [7], 1⟩, 71⟩)])] }

/-- The third matching commit, from replica 2, reaching `Q = n - f = 3`. -/
def c1Commit : Signed Commit := ⟨⟨0, 1, [7], 2⟩, 72⟩

/-- The entry after its `commits` freeze. -/
def c1FrozenEntry : LogEntry :=
  { c1Entry with
    commits := [(0, ⟨⟨0, 1, [7], 0⟩, 70⟩), (1, ⟨⟨0, 1, [7], 1⟩, 71⟩), (2, ⟨⟨0, 1, [7], 2⟩, 72⟩)] }

/-- The replica state in which `insert_commit` enters its commit loop. -/
def c1Frozen : Replica :=
  { Replica.new 0 4 1 with log := [LogEntry.default, c1FrozenEntry] }

/-- C1: when the commit quorum for op_num 1 freezes, the
commit-advancing `while` loop of `Replica::insert_commit` never
terminates, for any application behaviour and any amount of fuel: the
loop body contains no increment of `commit_num` (and no other change to
the loop guard), so `commit_num` stays 0, `log[commit_num + 1]` keeps
its non-empty `commits`, and the entry's requests are re-executed
forever instead of being executed exactly once followed by
`commit_num` advancing past the entry. -/
theorem C1_commit_num_never_advances :
    ∀ (exec : Nat → List Nat → Nat × List Nat) (fuel : Nat),
      insert_commit exec fuel c1State c1Commit = .error .loopFuel := by
  intro exec fuel
  have hloop : commit_loop exec fuel c1Frozen [] = none :=
    commit_loop_stuck exec c1FrozenEntry rfl fuel c1Frozen [] rfl
  show (match commit_loop exec fuel c1Frozen [] with
        | none => (Except.error Panic.loopFuel : Except Panic (Replica × List ReplicaEffect))
        | some r => Except.ok r)
      = Except.error Panic.loopFuel
  rw [hloop]

/-- C2: a `Signed<Prepare>` for op_num 1 in the current view whose
signature fails verification is indeed dropped by the crypto worker (no
`VerifiedPrepare` event is produced), but the replica's state is NOT
identical to its state before: `on_ingress_prepare` installed the empty
`on_verified_prepare[1]` queue as its one-verification-in-flight
sentinel before submitting, and only a `VerifiedPrepare` event pops that
queue. Consequently a second, validly signed prepare for op_num 1 is
merely pushed onto the queue with no verification submitted, even
though its signature would verify — its verification never runs. The
crypto provider here deems a signature valid iff it equals `100 +
signer index`; the first prepare (replica 2, signature 0) is invalid,
the second (replica 3, signature 103) is valid. -/
theorem C2_failed_verification_leaves_sentinel :
    on_ingress_prepare (Replica.new 0 4 1) ⟨⟨0, 1, [7], 2⟩, 0⟩
      = .ok ({ Replica.new 0 4 1 with on_verified_prepare := [(1, [])] },
             [.submitVerifyPrepare 2 ⟨⟨0, 1, [7], 2⟩, 0⟩])
    ∧ runVerifyPrepare (fun i sp => sp.signature == 100 + i) 2 ⟨⟨0, 1, [7], 2⟩, 0⟩ = []
    ∧ ({ Replica.new 0 4 1 with on_verified_prepare := [(1, [])] } : Replica) ≠ Replica.new 0 4 1
    ∧ on_ingress_prepare { Replica.new 0 4 1 with on_verified_prepare := [(1, [])] }
        ⟨⟨0, 1, [7], 3⟩, 103⟩
      = .ok ({ Replica.new 0 4 1 with on_verified_prepare := [(1, [⟨⟨0, 1, [7], 3⟩, 103⟩])] },
             [])
    ∧ runVerifyPrepare (fun i sp => sp.signature == 100 + i) 3 ⟨⟨0, 1, [7], 3⟩, 103⟩
      = [.VerifiedPrepare ⟨⟨0, 1, [7], 3⟩, 103⟩] := by
  refine ⟨rfl, rfl, by decide, rfl, rfl⟩

theorem resizeLog_getElem? (log : List LogEntry) (n op : Nat) (h : op < log.length) :
    (resizeLog log n)[op]? = log[op]? := by
  simp [resizeLog, List.getElem?_append_left h]

theorem ensureLen_getElem? (log : List LogEntry) (op' op : Nat) (h : op < log.length) :
    (ensureLen log op')[op]? = log[op]? := by
  unfold ensureLen
  split
  · rfl
  · exact resizeLog_getElem? log (op' + 1) op h

theorem lt_of_getElem?_some {α : Type} {l : List α} {i : Nat} {a : α}
    (h : l[i]? = some a) : i < l.length := by
  by_contra hn
  rw [List.getElem?_eq_none (by omega)] at h
  cases h

theorem getD_of_getElem?_some {α : Type} {l : List α} {i : Nat} {a : α} (d : α)
    (h : l[i]? = some a) : l.getD i d = a := by
  simp [List.getD, h]

theorem prepared_log_unchanged (s : Replica) (op_num : Nat) (s' : Replica)
    (effs : List ReplicaEffect) (h : prepared s op_num = .ok (s', effs)) :
    s'.log = s.log := by
  simp only [prepared] at h
  split at h
  · cases h
  · cases h
    rfl

/-- C7: once `log[op_num].pre_prepare` is set, no handler among
`on_signed_pre_prepare`, `on_ingress_pre_prepare` and
`on_verified_pre_prepare` that completes normally replaces it:
`on_signed_pre_prepare` aborts on its `assert!` when the entry is
already set (and leaves other entries untouched),
`on_ingress_pre_prepare` never modifies the state at all, and
`on_verified_pre_prepare` drops a pre-prepare for an already-set entry
idempotently. This holds for any op_num and any view of the incoming
message, which subsumes the claim's current-view case. -/
theorem C7_pre_prepare_never_overwritten
    (s : Replica) (pp : Signed PrePrepare) (requests : List Request)
    (op : Nat) (e : LogEntry) (q : Signed PrePrepare)
    (hget : s.log[op]? = some e) (hset : e.pre_prepare = some q) :
    (∀ (s' : Replica) (effs : List ReplicaEffect),
      on_signed_pre_prepare s pp requests = .ok (s', effs) →
      ∃ e', s'.log[op]? = some e' ∧ e'.pre_prepare = some q)
    ∧ (∀ (s' : Replica) (effs : List ReplicaEffect),
      on_ingress_pre_prepare s pp requests = .ok (s', effs) → s' = s)
    ∧ (∀ (s' : Replica) (effs : List ReplicaEffect),
      on_verified_pre_prepare s pp requests = .ok (s', effs) →
      ∃ e', s'.log[op]? = some e' ∧ e'.pre_prepare = some q) := by
  have hlt : op < s.log.length := lt_of_getElem?_some hget
  have hens : ∀ op', (ensureLen s.log op')[op]? = some e := fun op' => by
    rw [ensureLen_getElem? s.log op' op hlt]; exact hget
  refine ⟨?_, ?_, ?_⟩
  · intro s' effs hok
    simp only [on_signed_pre_prepare] at hok
    split at hok
    · cases hok
      exact ⟨e, hget, hset⟩
    · split at hok
      · cases hok
      · rename_i hview hsome
        cases hok
        have hopne : pp.inner.op_num ≠ op := by
          intro heq
          apply hsome
          rw [heq, getD_of_getElem?_some LogEntry.default (hens op), hset]
          rfl
        refine ⟨e, ?_, hset⟩
        rw [List.getElem?_set_ne hopne, hens pp.inner.op_num]
  · intro s' effs hok
    simp only [on_ingress_pre_prepare] at hok
    split at hok
    · split at hok
      · cases hok
      · cases hok; rfl
    · split at hok
      · cases hok; rfl
      · cases hok; rfl
  · intro s' effs hok
    simp only [on_verified_pre_prepare] at hok
    split at hok
    · cases hok
      exact ⟨e, hget, hset⟩
    · split at hok
      · cases hok
        exact ⟨e, hens pp.inner.op_num, hset⟩
      · rename_i hview hsome
        have hopne : pp.inner.op_num ≠ op := by
          intro heq
          apply hsome
          rw [heq, getD_of_getElem?_some LogEntry.default (hens op), hset]
          rfl
        split at hok
        · cases hok
          refine ⟨e, ?_, hset⟩
          rw [List.getElem?_set_ne hopne, hens pp.inner.op_num]
        · split at hok
          · split at hok
            · cases hok
            · split at hok
              · cases hok
              · rename_i s₂ effs₂ hprep
                cases hok
                have hlog := prepared_log_unchanged _ _ _ _ hprep
                refine ⟨e, ?_, hset⟩
                rw [hlog]
                show (((ensureLen s.log pp.inner.op_num).set pp.inner.op_num _).set
                    pp.inner.op_num _)[op]? = some e
                rw [List.getElem?_set_ne hopne, List.getElem?_set_ne hopne,
                    hens pp.inner.op_num]
          · cases hok
            refine ⟨e, ?_, hset⟩
            rw [List.getElem?_set_ne hopne, hens pp.inner.op_num]

/-- Witness for C7: a replica already holding a pre-prepare for op_num 1
processes a conflicting signed pre-prepare event for the same op and
view; the handlers that return `Ok` have kept the stored pre-prepare. -/
theorem C7_witness :
    (∀ (s' : Replica) (effs : List ReplicaEffect),
      on_signed_pre_prepare
          { Replica.new 0 4 1 with log := [LogEntry.default, c1Entry] } ⟨⟨0, 1, [8]⟩, 51⟩ []
        = .ok (s', effs) →
      ∃ e', s'.log[1]? = some e' ∧ e'.pre_prepare = some ⟨⟨0, 1, [7]⟩, 50⟩)
    ∧ (∀ (s' : Replica) (effs : List ReplicaEffect),
      on_ingress_pre_prepare
          { Replica.new 0 4 1 with log := [LogEntry.default, c1Entry] } ⟨⟨0, 1, [8]⟩, 51⟩ []
        = .ok (s', effs) →
      s' = { Replica.new 0 4 1 with log := [LogEntry.default, c1Entry] })
    ∧ (∀ (s' : Replica) (effs : List ReplicaEffect),
      on_verified_pre_prepare
          { Replica.new 0 4 1 with log := [LogEntry.default, c1Entry] } ⟨⟨0, 1, [8]⟩, 51⟩ []
        = .ok (s', effs) →
      ∃ e', s'.log[1]? = some e' ∧ e'.pre_prepare = some ⟨⟨0, 1, [7]⟩, 50⟩) :=
  C7_pre_prepare_never_overwritten
    { Replica.new 0 4 1 with log := [LogEntry.default, c1Entry] } ⟨⟨0, 1, [8]⟩, 51⟩ [] 1
    c1Entry ⟨⟨0, 1, [7]⟩, 50⟩ rfl rfl

end MurMesh
